import Mathlib

/-!
Verification of `converter.py` (quora-backup): a shallow embedding of the
relative-date resolver (`parse_quora_date`), the image localizer, the footer
rewriting, the tree-rewriting engine (`cleanup_tree`), and the per-file loop,
together with theorems settling the specification's claims about them.

Python machine integers are unbounded, so timestamps are modelled as `Int`;
`time.gmtime` is modelled by the standard civil-from-days calendar algorithm
(floor division, which `Int.ediv`/`Int.emod` provide for positive divisors).
Fallible Python code (raised exceptions) is modelled with `Option`/`Except`.
-/

/-- Python exception kinds that the converter can raise or catch. -/
inductive PyErr where
  | valueError
  | attributeError
  | nameError
deriving Repr, DecidableEq

/-! ## Date resolution: `parse_quora_date` (converter.py lines 34-80) -/

/-- The `days_of_week` list from line 35; index = Python `tm_wday` (Monday = 0). -/
def days_of_week : List String :=
  ["Mon", "Tue", "Wed", "Thu", "Fri", "Sat", "Sun"]

/-- The `months_of_year` list from line 36 (0-indexed list of abbreviations). -/
def months_of_year : List String :=
  ["Jan", "Feb", "Mar", "Apr", "May", "Jun", "Jul", "Aug", "Sep", "Oct", "Nov", "Dec"]

/-- The fields of Python's `time.struct_time` that the converter reads:
`tm_year`, `tm_mon` (1..12), `tm_mday` (1..31), `tm_wday` (0 = Monday). -/
structure Tm where
  tm_year : Int
  tm_mon : Int
  tm_mday : Int
  tm_wday : Int
deriving Repr, DecidableEq

/-- Civil date (year, month 1..12, day 1..31) from a count of days since
1970-01-01, by the standard Gregorian-calendar algorithm (as used by C
libraries backing `time.gmtime`).  `Int.ediv`/`Int.emod` give floor division
and a nonnegative remainder for the positive divisors used here. -/
def civilFromDays (z0 : Int) : Int × Int × Int :=
  let z := z0 + 719468
  let era := z / 146097
  let doe := z - era * 146097
  let yoe := (doe - doe / 1460 + doe / 36524 - doe / 146096) / 365
  let y := yoe + era * 400
  let doy := doe - (365 * yoe + yoe / 4 - yoe / 100)
  let mp := (5 * doy + 2) / 153
  let d := doy - (153 * mp + 2) / 5 + 1
  let m := if mp < 10 then mp + 3 else mp - 9
  (if m ≤ 2 then y + 1 else y, m, d)

/-- Model of Python `time.gmtime` restricted to the fields the converter uses.
1970-01-01 (day 0) was a Thursday, i.e. `tm_wday = 3` in Python's
Monday-is-0 convention. -/
def gmtime (t : Int) : Tm :=
  let days := t / 86400
  let c := civilFromDays days
  { tm_year := c.1, tm_mon := c.2.1, tm_mday := c.2.2,
    tm_wday := (days + 3) % 7 }

/-- ASCII decimal digits, the `\d+` of the anchored regexes in lines 38-43. -/
def allDigits (s : String) : Bool :=
  decide (s.length > 0) && s.toList.all Char.isDigit

/-- Numeric value of a digit string (Python `int`). -/
def parseNat (s : String) : Nat :=
  s.toList.foldl (fun n c => 10 * n + (c.toNat - 48)) 0

/-- Regex `(\d+)m ago$` / `(\d+)h ago$` / `(\d+)[ap]m$` (lines 38, 39, 43):
a maximal nonempty run of digits followed exactly by `suffix` (the suffixes
used never start with a digit, so maximal munch is exact). -/
def matchNumThen (suffix : String) (s : String) : Option Nat :=
  let ds := s.toList.takeWhile Char.isDigit
  let rest := s.toList.dropWhile Char.isDigit
  if ds ≠ [] ∧ rest = suffix.toList then some (parseNat ds.asString) else none

/-- Regex `(Mon|Tue|...|Sun)$` of line 40: the day-of-week index, if the whole
string is one of the seven abbreviations. -/
def matchWeekday (s : String) : Option Nat :=
  days_of_week.indexOf? s

/-- Regex `(Jan|...|Dec) (\d+)$` of line 41: month index (0-based) and day. -/
def matchMonthDay (s : String) : Option (Nat × Nat) :=
  match months_of_year.indexOf? (s.take 3) with
  | none => none
  | some mi =>
    let rest := s.drop 3
    if rest.take 1 = " " ∧ allDigits (rest.drop 1) then
      some (mi, parseNat (rest.drop 1))
    else none

/-- Regex `(Jan|...|Dec) (\d+), (\d+)$` of line 42: month index (0-based),
day digit-string, year digit-string. -/
def matchMonthDayYear (s : String) : Option (Nat × String × String) :=
  match months_of_year.indexOf? (s.take 3) with
  | none => none
  | some mi =>
    if (s.drop 3).take 1 ≠ " " then none
    else
      let rest := (s.drop 4).toList
      let ds := rest.takeWhile Char.isDigit
      let rest2 := rest.dropWhile Char.isDigit
      match rest2 with
      | ',' :: ' ' :: ys =>
        if ds ≠ [] ∧ ys ≠ [] ∧ ys.all Char.isDigit then
          some (mi, ds.asString, ys.asString)
        else none
      | _ => none

/-- Python `time.strptime(date_str, '%b %d, %Y')` as reached from the `m5`
branch (line 76), specified on the already-split groups: `%d` accepts a one-
or two-digit day between 1 and 31 (`time.strptime` does not validate the day
against the month), `%Y` accepts exactly four digits.  `tm_wday` is not
inspected by the caller and is set to 0. -/
def strptime_bdY (mi : Nat) (dayStr yearStr : String) : Option Tm :=
  if 1 ≤ parseNat dayStr ∧ parseNat dayStr ≤ 31 ∧ dayStr.length ≤ 2 ∧
      yearStr.length = 4 then
    some { tm_year := parseNat yearStr, tm_mon := mi + 1,
           tm_mday := parseNat dayStr, tm_wday := 0 }
  else none

/-- Offsets `1..7` tried by the weekday walk of lines 54-61. -/
def weekdayOffsets : List Int := [1, 2, 3, 4, 5, 6, 7]

/-- The weekday walk (lines 51-61): the first offset in `1..7` at which
`gmtime(origin - 86400*offset)` has the requested `tm_wday`; `none` models
the `else: raise ValueError` of the exhausted loop. -/
def findWeekdayOffset (origin : Int) (dow : Int) : Option Int :=
  weekdayOffsets.find? (fun o => (gmtime (origin - 86400 * o)).tm_wday == dow)

/-- Offsets `1..366` tried by the month/day walk of lines 62-73. -/
def monthDayOffsets : List Int :=
  (List.range 366).map (fun n => (n : Int) + 1)

/-- The month/day walk (lines 62-73): the first offset in `1..366` at which
`gmtime(origin - 86400*offset)` has the requested month and day; `none`
models the `else: raise ValueError` of the exhausted loop. -/
def findMonthDayOffset (origin : Int) (mon mday : Int) : Option Int :=
  monthDayOffsets.find? (fun o =>
    let tm := gmtime (origin - 86400 * o)
    tm.tm_mon == mon && tm.tm_mday == mday)

/-- The final rendering of line 80: `'%s %d, %d' % (months_of_year[tm.tm_mon],
tm.tm_mday, tm.tm_year)`.  Note the list is 0-indexed while `tm_mon` is
1-based; `none` models the `IndexError` raised when `tm_mon = 12`. -/
def render_date (tm : Tm) : Option String :=
  (months_of_year.get? tm.tm_mon.toNat).map (fun mName =>
    mName ++ " " ++ toString tm.tm_mday ++ ", " ++ toString tm.tm_year)

/-- Function `parse_quora_date(origin, date_str)` (lines 34-80).  `none` models a
raised `ValueError` (unrecognized or invalid date) or `IndexError` (from the
rendering line).  The branches are tried in the source's order: `m0`/`m6`
first, then `m1`, `m2`, `m3`, `m4`, `m5`. -/
def parse_quora_date (origin : Int) (date_str : String) : Option String :=
  if date_str = "just now" ∨ (matchNumThen "am" date_str).isSome ∨
      (matchNumThen "pm" date_str).isSome then
    render_date (gmtime origin)
  else if h1 : (matchNumThen "m ago" date_str).isSome then
    render_date (gmtime (origin - 60 * ((matchNumThen "m ago" date_str).get h1 : Int)))
  else if h2 : (matchNumThen "h ago" date_str).isSome then
    render_date (gmtime (origin - 3600 * ((matchNumThen "h ago" date_str).get h2 : Int)))
  else if h3 : (matchWeekday date_str).isSome then
    match findWeekdayOffset origin ((matchWeekday date_str).get h3 : Int) with
    | none => none
    | some o => render_date (gmtime (origin - 86400 * o))
  else if h4 : (matchMonthDay date_str).isSome then
    let md := (matchMonthDay date_str).get h4
    match findMonthDayOffset origin ((md.1 : Int) + 1) (md.2 : Int) with
    | none => none
    | some o => render_date (gmtime (origin - 86400 * o))
  else
    match matchMonthDayYear date_str with
    | some (mi, ds, ys) => (strptime_bdY mi ds ys).bind render_date
    | none => none

/-- Sanity instance: origin 2015-02-01T00:00:00Z is epoch second 1422748800,
a Sunday (`tm_wday = 6`). -/
example : gmtime 1422748800 =
    { tm_year := 2015, tm_mon := 2, tm_mday := 1, tm_wday := 6 } := by decide

/-- C1: for origin 2015-02-01T00:00:00Z the input `"3h ago"` lands on the
calendar date 2015-01-31, but the code renders it as `"Feb 31, 2015"`: the
rendering line indexes the 0-based `months_of_year` list with the 1-based
`tm_mon`, shifting every month abbreviation one month forward (and raising
`IndexError` for December).  The specified rendering would be
`"Jan 31, 2015"`. -/
theorem C1_month_render_eval :
    parse_quora_date 1422748800 "3h ago" = some "Feb 31, 2015" ∧
    gmtime (1422748800 - 3600 * 3) =
      { tm_year := 2015, tm_mon := 1, tm_mday := 31, tm_wday := 5 } ∧
    parse_quora_date 1417305600 "Dec 1, 2014" = none := by
  refine ⟨by decide, by decide, by decide⟩

/-! ## C7: the weekday walk always succeeds within 7 steps -/

theorem gmtime_tm_wday (t : Int) :
    (gmtime t).tm_wday = (t / 86400 + 3) % 7 := rfl

/-- Subtracting `o` whole days shifts the epoch-day number by exactly `o`. -/
theorem sub_day_ediv (t : Int) : ∀ o : Int,
    (t - 86400 * o) / 86400 = t / 86400 - o := by
  intro o
  omega

/-- Evaluation of the 7-offset search once the condition is reduced to
arithmetic on the origin's weekday `a` and the target weekday `dow`. -/
theorem weekday_find_eval (a dow : Int) (ha0 : 0 ≤ a) (ha7 : a < 7)
    (h0 : 0 ≤ dow) (h7 : dow < 7) :
    List.find? (fun o : Int => ((a - o) % 7 == dow)) [1, 2, 3, 4, 5, 6, 7]
      = some ((a - dow - 1) % 7 + 1) := by
  interval_cases a <;> interval_cases dow <;> decide

/-- C7: for every origin instant and every weekday index, the backward walk of
lines 54-61 finds a matching calendar day at some offset in `1..7` (so the
defensive `else: raise ValueError` is unreachable), and the day it lands on is
the greatest epoch-day strictly before the origin's epoch-day whose weekday
matches. -/
theorem C7_weekday_walk (origin : Int) (dow : Int) (h0 : 0 ≤ dow) (h7 : dow < 7) :
    ∃ o : Int, findWeekdayOffset origin dow = some o ∧ 1 ≤ o ∧ o ≤ 7 ∧
      (gmtime (origin - 86400 * o)).tm_wday = dow ∧
      (origin - 86400 * o) / 86400 = origin / 86400 - o ∧
      ∀ d : Int, d < origin / 86400 → (d + 3) % 7 = dow →
        d ≤ origin / 86400 - o := by
  have hfun : (fun o => (gmtime (origin - 86400 * o)).tm_wday == dow)
      = (fun o : Int => (((origin / 86400 + 3) % 7 - o) % 7 == dow)) := by
    funext o
    rw [gmtime_tm_wday, sub_day_ediv]
    have h1 : (origin / 86400 - o + 3) % 7
        = ((origin / 86400 + 3) % 7 - o) % 7 := by omega
    rw [h1]
  have ha0 : 0 ≤ (origin / 86400 + 3) % 7 := Int.emod_nonneg _ (by norm_num)
  have ha7 : (origin / 86400 + 3) % 7 < 7 := Int.emod_lt_of_pos _ (by norm_num)
  refine ⟨((origin / 86400 + 3) % 7 - dow - 1) % 7 + 1,
    ?_, by omega, by omega, ?_, sub_day_ediv origin _, ?_⟩
  · unfold findWeekdayOffset weekdayOffsets
    rw [hfun]
    exact weekday_find_eval _ _ ha0 ha7 h0 h7
  · rw [gmtime_tm_wday, sub_day_ediv]
    omega
  · intro d hd hmod
    omega

/-- Witness for C7 at origin 2015-02-01T00:00:00Z (a Sunday) and weekday
`Tue` (index 1). -/
theorem C7_weekday_walk_witness :
    ∃ o : Int, findWeekdayOffset 1422748800 1 = some o ∧ 1 ≤ o ∧ o ≤ 7 ∧
      (gmtime (1422748800 - 86400 * o)).tm_wday = 1 ∧
      (1422748800 - 86400 * o) / 86400 = (1422748800 : Int) / 86400 - o ∧
      ∀ d : Int, d < (1422748800 : Int) / 86400 → (d + 3) % 7 = 1 →
        d ≤ (1422748800 : Int) / 86400 - o :=
  C7_weekday_walk 1422748800 1 (by decide) (by decide)

/-! ## Image localization (converter.py lines 177-234) -/

/-- A character admissible in the `[^/?]+` group of the filename regex. -/
def isSegChar (c : Char) : Bool := !(c == '/') && !(c == '?')

/-- The search of `re.search('/([^/?]+)(\?|$)', src)` (line 190): scanning
left to right, the first `/` followed by a nonempty maximal run of non-`/`,
non-`?` characters that ends at a `?` or at the end of the string; the run is
group 1.  (Shrinking the greedy run cannot help, since the character after a
shorter run is neither `?` nor the end, so testing only the maximal run is
exact; on failure the scan advances one character, which the recursion
mirrors.) -/
def searchSegment : List Char → Option (List Char)
  | [] => none
  | '/' :: rest =>
    let seg := rest.takeWhile isSegChar
    let after := rest.drop seg.length
    if seg ≠ [] ∧ (after = [] ∨ after.head? = some '?') then some seg
    else searchSegment rest
  | _ :: rest => searchSegment rest

/-- Group 1 of the filename regex applied to a URL, or `none` (the
`raise ValueError()` of line 192). -/
def deriveSegment (url : String) : Option String :=
  (searchSegment url.toList).map List.asString

/-- Python `str.endswith`, computed on character lists. -/
def pyEndsWith (s suffix : String) : Bool :=
  suffix.toList.isSuffixOf s.toList

/-- Lines 194-195: append `.png` unless the name already ends with it. -/
def mkImageName (seg : String) : String :=
  if pyEndsWith seg ".png" then seg else seg ++ ".png"

/-- The output directory's image namespace, plus the count of
`urllib.request.urlopen` calls, threaded through image localization. -/
structure FsState where
  files : List String
  fetches : Nat
deriving Repr, DecidableEq

/-- The image-localization block of lines 189-232: derive a filename from the
URL (on failure the caught `ValueError` keeps the remote URL); open the
target with `O_CREAT | O_EXCL` — on `EEXIST` return the existing filename
with no fetch; otherwise fetch (`fetchOk` abstracts the network), write on
success, or remove the freshly created file and keep the remote URL on
failure.  Returns the final `src` attribute value and the new state. -/
def localizeImage (fetchOk : String → Bool) (url : String) (st : FsState) :
    String × FsState :=
  match deriveSegment url with
  | none => (url, st)
  | some seg =>
    let filename := mkImageName seg
    if filename ∈ st.files then (filename, st)
    else
      let st1 : FsState :=
        { files := filename :: st.files, fetches := st.fetches + 1 }
      if fetchOk url then (filename, st1)
      else (url, { st1 with files := st1.files.erase filename })

/-- C8: image localization is idempotent and at-most-once per filename: with
a derivable name not yet on disk and a working network, the first call fetches
once and returns the local filename; the second call returns the same
filename, changes nothing, and performs no further fetch; and whenever the
target file already exists, localization succeeds immediately with the
existing filename and the state untouched. -/
theorem C8_localize_idempotent (fetchOk : String → Bool) (url seg : String)
    (st : FsState) (hseg : deriveSegment url = some seg)
    (hfresh : mkImageName seg ∉ st.files) (hfetch : fetchOk url = true) :
    (localizeImage fetchOk url st).1 = mkImageName seg ∧
    (localizeImage fetchOk url (localizeImage fetchOk url st).2).1
      = mkImageName seg ∧
    (localizeImage fetchOk url (localizeImage fetchOk url st).2).2
      = (localizeImage fetchOk url st).2 ∧
    (localizeImage fetchOk url st).2.fetches = st.fetches + 1 ∧
    ∀ st' : FsState, mkImageName seg ∈ st'.files →
      localizeImage fetchOk url st' = (mkImageName seg, st') := by
  have h1 : localizeImage fetchOk url st =
      (mkImageName seg,
        { files := mkImageName seg :: st.files, fetches := st.fetches + 1 }) := by
    simp [localizeImage, hseg, hfresh, hfetch]
  have h2 : ∀ st' : FsState, mkImageName seg ∈ st'.files →
      localizeImage fetchOk url st' = (mkImageName seg, st') := by
    intro st' hmem
    simp [localizeImage, hseg, hmem]
  refine ⟨by rw [h1], ?_, ?_, by rw [h1], h2⟩
  · rw [h1, h2 _ (by simp)]
  · rw [h1, h2 _ (by simp)]

/-- Witness for C8 on a concrete URL with an empty output directory. -/
theorem C8_localize_idempotent_witness :
    (localizeImage (fun _ => true) "http://quora.com/images/a.png" ⟨[], 0⟩).1
      = mkImageName "a.png" ∧
    (localizeImage (fun _ => true) "http://quora.com/images/a.png"
      (localizeImage (fun _ => true) "http://quora.com/images/a.png" ⟨[], 0⟩).2).1
      = mkImageName "a.png" ∧
    (localizeImage (fun _ => true) "http://quora.com/images/a.png"
      (localizeImage (fun _ => true) "http://quora.com/images/a.png" ⟨[], 0⟩).2).2
      = (localizeImage (fun _ => true) "http://quora.com/images/a.png" ⟨[], 0⟩).2 ∧
    (localizeImage (fun _ => true) "http://quora.com/images/a.png" ⟨[], 0⟩).2.fetches
      = 0 + 1 ∧
    ∀ st' : FsState, mkImageName "a.png" ∈ st'.files →
      localizeImage (fun _ => true) "http://quora.com/images/a.png" st'
        = (mkImageName "a.png", st') :=
  C8_localize_idempotent (fun _ => true) "http://quora.com/images/a.png"
    "a.png" ⟨[], 0⟩ (by decide) (by decide) rfl

/-- C10: `.png` is the only extension the localizer recognizes: whenever the
derived segment does not end in `.png` — even if it ends in another image
extension such as `.jpg` — the local filename is the segment with `.png`
appended, and (with a working network) that is the filename the node's `src`
is rewritten to. -/
theorem C10_png_appended (fetchOk : String → Bool) (url seg : String)
    (st : FsState) (hseg : deriveSegment url = some seg)
    (hnp : pyEndsWith seg ".png" = false) (hfetch : fetchOk url = true) :
    mkImageName seg = seg ++ ".png" ∧
    (localizeImage fetchOk url st).1 = seg ++ ".png" := by
  have hmk : mkImageName seg = seg ++ ".png" := by
    simp [mkImageName, hnp]
  refine ⟨hmk, ?_⟩
  simp only [localizeImage, hseg, hmk]
  by_cases hmem : seg ++ ".png" ∈ st.files
  · simp [hmem]
  · simp [hmem, hfetch]

/-- Witness for C10: the segment `photo.jpg` becomes `photo.jpg.png`. -/
theorem C10_png_appended_witness :
    mkImageName "photo.jpg" = "photo.jpg" ++ ".png" ∧
    (localizeImage (fun _ => true)
      "https://qph.is.quoracdn.net/main-qimg/photo.jpg" ⟨[], 0⟩).1
      = "photo.jpg" ++ ".png" :=
  C10_png_appended (fun _ => true)
    "https://qph.is.quoracdn.net/main-qimg/photo.jpg" "photo.jpg" ⟨[], 0⟩
    (by decide) (by decide) rfl

/-! ## Footer date rewriting (converter.py lines 347-368) -/

/-- Candidate end positions for the greedy group of `re.match(p + ' (.+ ago)')`
applied to the remainder `cs` after the literal part: positions `j ≥ 1` where
`" ago"` starts, with no newline before `j` (`.` does not match a newline).
`List.range` is ascending, so the last candidate is the greedy (largest)
one. -/
def agoCandidates (cs : List Char) : List Nat :=
  (List.range cs.length).filter (fun j =>
    decide (1 ≤ j) && ((cs.drop j).take 4 == [' ', 'a', 'g', 'o']) &&
      !(cs.take j).contains '\n')

/-- Matching `re.match(pre + '(.+ ago)', text)`: the literal prefix followed by a
greedy nonempty run and the literal `" ago"`; returns group 1 (which includes
the trailing `" ago"`), matching the regexes of lines 352 and 363. -/
def matchAgo (pre text : String) : Option String :=
  if pre.toList.isPrefixOf text.toList then
    let r := text.toList.drop pre.toList.length
    match (agoCandidates r).getLast? with
    | some j => some ((r.take (j + 4)).asString)
    | none => none
  else none

/-- The `CredibilityFacts` branch (lines 347-357): read
`a[0].firstChild.nodeValue`, match `Answered (.+ ago)`, resolve, and write the
resolved text back to `a[0]`.  Anchors are modelled by the `nodeValue` of
their first child; `none` stands for an anchor whose first child is missing
(`AttributeError` on the read) or is an element (`nodeValue` is `None`, so
`re.match` raises `TypeError`) — in every failure path the blanket
`except Exception: pass` leaves all anchors unchanged. -/
def processCredibilityFacts (origin : Int) (anchors : List (Option String)) :
    List (Option String) :=
  match anchors.get? 0 with
  | none => anchors
  | some none => anchors
  | some (some text) =>
    match matchAgo "Answered " text with
    | none => anchors
    | some rel =>
      match parse_quora_date origin rel with
      | none => anchors
      | some new_time => anchors.set 0 (some ("Answered " ++ new_time))

/-- The `PostFooter` branch (lines 358-368): read
`a[0].firstChild.nodeValue` and match `Posted (.+ ago)`, but write the
resolved text to `a[1]` (line 366).  A missing `a[1]` raises `IndexError`
(caught, anchors unchanged); an `a[1]` without a text first child either
raises `AttributeError` (caught) or assigns `nodeValue` on an element (inert
for serialization) — both modelled as no change. -/
def processPostFooter (origin : Int) (anchors : List (Option String)) :
    List (Option String) :=
  match anchors.get? 0 with
  | none => anchors
  | some none => anchors
  | some (some text) =>
    match matchAgo "Posted " text with
    | none => anchors
    | some rel =>
      match parse_quora_date origin rel with
      | none => anchors
      | some new_time =>
        match anchors.get? 1 with
        | none => anchors
        | some none => anchors
        | some (some _) => anchors.set 1 (some ("Posted " ++ new_time))

/-- C6 fails on the code: with two anchors whose first text is
`"Posted 3h ago"`, the post-footer branch leaves the matched anchor (index 0)
untouched and overwrites the second anchor instead. -/
theorem C6_counterexample :
    processPostFooter 1422748800 [some "Posted 3h ago", some "by someone"]
      = [some "Posted 3h ago", some "Posted Feb 31, 2015"] ∧
    (processPostFooter 1422748800
        [some "Posted 3h ago", some "by someone"]).get? 0
      ≠ some (some ("Posted " ++ "Feb 31, 2015")) := by
  constructor
  · decide
  · decide

/-- C6 amended: the credibility footer rewrites the same (first) anchor it
read; the post footer reads the first anchor's text but writes the resolved
text to the second anchor, leaving the first unchanged; and every failure
(no match, or unresolvable relative part) leaves all anchor texts
untouched. -/
theorem C6_amended (origin : Int) (t a1 : String)
    (rest : List (Option String)) (rel new : String)
    (hm : matchAgo "Posted " t = some rel)
    (hp : parse_quora_date origin rel = some new) :
    processPostFooter origin (some t :: some a1 :: rest)
      = some t :: some ("Posted " ++ new) :: rest ∧
    (∀ rel2 new2, matchAgo "Answered " t = some rel2 →
      parse_quora_date origin rel2 = some new2 →
      processCredibilityFacts origin (some t :: some a1 :: rest)
        = some ("Answered " ++ new2) :: some a1 :: rest) ∧
    (∀ t2 l, matchAgo "Posted " t2 = none →
      processPostFooter origin (some t2 :: l) = some t2 :: l) ∧
    (∀ t2 l, matchAgo "Answered " t2 = none →
      processCredibilityFacts origin (some t2 :: l) = some t2 :: l) ∧
    (∀ t2 r2 l, matchAgo "Posted " t2 = some r2 →
      parse_quora_date origin r2 = none →
      processPostFooter origin (some t2 :: l) = some t2 :: l) ∧
    (∀ t2 r2 l, matchAgo "Answered " t2 = some r2 →
      parse_quora_date origin r2 = none →
      processCredibilityFacts origin (some t2 :: l) = some t2 :: l) := by
  refine ⟨?_, ?_, ?_, ?_, ?_, ?_⟩
  · simp [processPostFooter, hm, hp]
  · intro rel2 new2 hm2 hp2
    simp [processCredibilityFacts, hm2, hp2]
  · intro t2 l hnm
    simp [processPostFooter, hnm]
  · intro t2 l hnm
    simp [processCredibilityFacts, hnm]
  · intro t2 r2 l hm2 hp2
    simp [processPostFooter, hm2, hp2]
  · intro t2 r2 l hm2 hp2
    simp [processCredibilityFacts, hm2, hp2]

/-- Witness for C6 amended, at the origin 2015-02-01T00:00:00Z with first
anchor text `"Posted 3h ago"`. -/
theorem C6_amended_witness :
    processPostFooter 1422748800 [some "Posted 3h ago", some "x"]
      = some "Posted 3h ago" :: some ("Posted " ++ "Feb 31, 2015") :: [] ∧
    (∀ rel2 new2, matchAgo "Answered " "Posted 3h ago" = some rel2 →
      parse_quora_date 1422748800 rel2 = some new2 →
      processCredibilityFacts 1422748800 [some "Posted 3h ago", some "x"]
        = some ("Answered " ++ new2) :: some "x" :: []) ∧
    (∀ t2 l, matchAgo "Posted " t2 = none →
      processPostFooter 1422748800 (some t2 :: l) = some t2 :: l) ∧
    (∀ t2 l, matchAgo "Answered " t2 = none →
      processCredibilityFacts 1422748800 (some t2 :: l) = some t2 :: l) ∧
    (∀ t2 r2 l, matchAgo "Posted " t2 = some r2 →
      parse_quora_date 1422748800 r2 = none →
      processPostFooter 1422748800 (some t2 :: l) = some t2 :: l) ∧
    (∀ t2 r2 l, matchAgo "Answered " t2 = some r2 →
      parse_quora_date 1422748800 r2 = none →
      processCredibilityFacts 1422748800 (some t2 :: l) = some t2 :: l) :=
  C6_amended 1422748800 "Posted 3h ago" "x" [] "3h ago" "Feb 31, 2015"
    (by decide) (by decide)

/-! ## Per-file region classification and the run loop (lines 302-374) -/

/-- Python `str.split()` with no argument: split on runs of whitespace,
discarding empty pieces (computed on character lists). -/
def pySplitAux : List Char → List Char → List String
  | [], acc => if acc.isEmpty then [] else [acc.reverse.asString]
  | c :: cs, acc =>
    if c.isWhitespace then
      if acc.isEmpty then pySplitAux cs []
      else acc.reverse.asString :: pySplitAux cs []
    else pySplitAux cs (c :: acc)

def pySplit (s : String) : List String :=
  pySplitAux s.toList []

/-- Exact token membership of `marker` in the space-split class attribute,
the test `marker in node.getAttribute('class').split()` used by the
region-classification loop (lines 327-358). -/
def tokenIn (marker cls : String) : Bool := (pySplit cls).contains marker

/-- The div-classification loop of lines 324-368, restricted to which region
kinds are present (each div takes at most the first matching branch of the
`elif` chain).  Returns (answer found, post found, question found).  The two
footer branches only rewrite anchor text (`processCredibilityFacts` /
`processPostFooter`) and play no part in the region check of lines
369-374. -/
def scanDivs : List String → Bool × Bool × Bool
  | [] => (false, false, false)
  | cls :: rest =>
    let r := scanDivs rest
    if tokenIn "ExpandedAnswer" cls then (true, r.2.1, r.2.2)
    else if tokenIn "ExpandedPostContent" cls then (r.1, true, r.2.2)
    else if tokenIn "ans_page_question_header" cls then (r.1, r.2.1, true)
    else if tokenIn "BoardItem" cls then (r.1, r.2.1, true)
    else r

/-- One iteration of the per-file loop from the region check onward (lines
369-374), on the class strings of the file's `div` elements.  When no
answer/post div or no question div was found, the code runs
`print('[WARNING] Failed to locate answer on page (Source URL was %s)' % url)`
— but no variable `url` is defined anywhere in the program, so evaluating
the format operand raises `NameError` instead of printing and continuing.
The successful path (page assembly and serialization, lines 376-426) is
abstracted as success. -/
def processFile (divClasses : List String) : Except PyErr Unit :=
  let r := scanDivs divClasses
  if !r.1 && !r.2.1 then .error .nameError
  else if !r.2.2 then .error .nameError
  else .ok ()

/-- The `for filename in filenames:` loop (line 302): an exception that
escapes an iteration propagates and aborts the whole run with a non-zero
exit; otherwise every file is processed and the script reaches line 428 and
exits 0.  Returns how many files were completed when the run finishes. -/
def runFiles : List (List String) → Except PyErr Nat
  | [] => .ok 0
  | d :: rest =>
    match processFile d with
    | .error e => .error e
    | .ok _ => (runFiles rest).map (fun n => n + 1)

/-- C2 fails on the code: a file with no answer/post/question region makes
the warning print of line 370 evaluate the undefined name `url`, raising an
uncaught `NameError`, so the run aborts (non-zero exit) and subsequent files
are never processed — instead of skipping the file, continuing, and exiting
zero.  The third conjunct shows a well-formed file alone completes. -/
theorem C2_missing_region_eval :
    processFile ["content pagedlist_item"] = .error .nameError ∧
    runFiles [["content pagedlist_item"],
      ["ExpandedAnswer", "ans_page_question_header"]] = .error .nameError ∧
    runFiles [["ExpandedAnswer", "ans_page_question_header"]] = .ok 1 := by
  refine ⟨rfl, rfl, rfl⟩

/-! ## The DOM model and the tree rewriter `cleanup_tree` (lines 95-258) -/

/-- A `minidom` node as the converter observes it: a text node with its
`data`, an element with tag name, attribute list (`getAttribute` returns the
first binding, `""` when absent) and ordered children, or any other node kind
(comment, CDATA, ...), whose `nodeType` is neither `TEXT_NODE` nor
`ELEMENT_NODE`. -/
inductive NTree where
  | text (data : String)
  | elem (tag : String) (attrs : List (String × String)) (children : List NTree)
  | other

/-- Whether `needle` occurs as a contiguous run in `hay`: it is a prefix of some
suffix. -/
def isInfixChars : List Char → List Char → Bool
  | needle, [] => needle.isEmpty
  | needle, c :: rest => needle.isPrefixOf (c :: rest) || isInfixChars needle rest

/-- Python substring containment `needle in hay` on strings. -/
def pyIn (needle hay : String) : Bool :=
  isInfixChars needle.toList hay.toList

/-- Python `str.startswith`. -/
def pyStartsWith (s pre : String) : Bool :=
  pre.toList.isPrefixOf s.toList

/-- Python `node.getAttribute(k)`: the attribute's value, or `""` when absent. -/
def getAttr (attrs : List (String × String)) (k : String) : String :=
  ((attrs.find? (fun p => p.1 == k)).map Prod.snd).getD ""

/-- Python `node.setAttribute(k, v)`: replace in place, or append when absent. -/
def setAttr (attrs : List (String × String)) (k v : String) :
    List (String × String) :=
  if attrs.any (fun p => p.1 == k) then
    attrs.map (fun p => if p.1 == k then (k, v) else p)
  else attrs ++ [(k, v)]

/-- Python `node.childNodes` (childless node kinds have an empty list). -/
def childNodesOf : NTree → List NTree
  | .elem _ _ cs => cs
  | _ => []

/-- Python `node.firstChild`, which is `None` for childless nodes. -/
def firstChild : NTree → Option NTree
  | .elem _ _ (c :: _) => some c
  | _ => none

/-- Function `get_text_content` (lines 22-27): concatenation of the `data` of the
node's direct text children. -/
def get_text_content (n : NTree) : String :=
  String.join ((childNodesOf n).filterMap (fun c =>
    match c with
    | .text d => some d
    | _ => none))

/-- The `getElementsByTagName` descendant scan in document (preorder) order,
excluding the node itself, as `minidom` implements it. -/
def getElemsByTagList (tag : String) : List NTree → List NTree
  | [] => []
  | .elem t a ch :: rest =>
    (if t = tag then [NTree.elem t a ch] else []) ++ getElemsByTagList tag ch
      ++ getElemsByTagList tag rest
  | .text _ :: rest => getElemsByTagList tag rest
  | .other :: rest => getElemsByTagList tag rest
termination_by l => sizeOf l

/-- Python `node.getElementsByTagName(tag)`. -/
def getElementsByTagName (tag : String) (n : NTree) : List NTree :=
  getElemsByTagList tag (childNodesOf n)

/-- Per-conversion context: the `no_download` flag, the network (`fetchOk`
tells whether `urlopen` succeeds for a URL), and the html5lib parser used on
`data-embed` attributes (`parseEmbed` returns the parsed fragment's
`documentElement`; html5lib is error-recovering, so parsing is total). -/
structure Ctx where
  no_download : Bool
  fetchOk : String → Bool
  parseEmbed : String → NTree

/-- Tags passed through with a fresh element of the same name (line 107). -/
def passTags : List String :=
  ["b", "i", "u", "h1", "h2", "ol", "ul", "li", "blockquote", "wbr", "p"]

/-- The video-embed handler (lines 124-146).  Every failure inside the `try`
(`IndexError` on `childNodes[1]`, `AttributeError` on `.firstChild`/`.tagName`
of a non-element, the explicit `ValueError` on a non-iframe tag) is caught by
`except Exception` and falls back to a verbatim deep clone of `child`, so the
handler is total. -/
def embedBranch (ctx : Ctx) (child : NTree) (embedHtml : String) : NTree :=
  let root := ctx.parseEmbed embedHtml
  match (childNodesOf root).get? 1 with
  | none => child
  | some n2 =>
    match firstChild n2 with
    | none => child
    | some ifr =>
      match ifr with
      | .elem t a _ =>
        if t = "iframe" then
          let s := getAttr a "src"
          let a2 :=
            if pyStartsWith s "//" then setAttr a "src" ("http:" ++ s) else a
          NTree.elem "iframe" (setAttr (setAttr a2 "width" "525") "height" "295") []
        else child
      | _ => child

/-- The block-code handler body (lines 235-254): every descendant `div` is a
line; each line is the concatenation of the text of that div's descendant
`span`s; lines are joined with newlines inside `pre > code`.  The body raises
nothing, so the `except Exception` clone fallback is dead code. -/
def codeblockBranch (child : NTree) : NTree :=
  let divs := getElementsByTagName "div" child
  let lines := divs.map (fun d =>
    String.join ((getElementsByTagName "span" d).map get_text_content))
  NTree.elem "pre" [] [NTree.elem "code" [] [NTree.text (String.intercalate "\n" lines)]]

/-- Sequencing of exception-raising steps (`Except.bind`), kept as a named
helper so the rewriter's equations stay in terms of it. -/
def exSeq {α β : Type} (x : Except PyErr α) (f : α → Except PyErr β) :
    Except PyErr β :=
  match x with
  | .error e => .error e
  | .ok a => f a

@[simp] theorem exSeq_ok {α β : Type} (a : α) (f : α → Except PyErr β) :
    exSeq (.ok a) f = f a := rfl

@[simp] theorem exSeq_err {α β : Type} (e : PyErr) (f : α → Except PyErr β) :
    exSeq (.error e) f = .error e := rfl

/-- Navigation `child.firstChild.firstChild` followed by `.tagName` (lines 151-152):
the tag, attributes and children of the grandchild element.  `AttributeError`
is raised when the node has no first child (`None.firstChild`), when the
grandchild slot is `None`, or when the grandchild is not an element (text and
comment nodes have no `tagName`). -/
def grandchildElem (children : List NTree) :
    Except PyErr (String × List (String × String) × List NTree) :=
  match children.head? with
  | none => .error .attributeError
  | some fc =>
    match firstChild fc with
    | none => .error .attributeError
    | some (.elem t a ch) => .ok (t, a, ch)
    | some _ => .error .attributeError

/-- The tail of a list is no larger than the list. -/
theorem sizeOf_tail_le {α : Type} [SizeOf α] (l : List α) :
    sizeOf l.tail ≤ sizeOf l := by
  cases l with
  | nil => simp
  | cons a l => simp

/-- The loop body of `cleanup_tree` (lines 95-258) over the live child list
of `src`.  Returns `(src's children after the call, nodes appended to dest,
file/network state)`; a returned `.error` is an exception escaping
`cleanup_tree`.  Two behaviours of the source are modelled exactly:

* the title branches (lines 112-123) call `new_node.appendChild(child)`,
  which in `minidom` *moves* `child` out of `src.childNodes`; since Python's
  list iterator then advances past the element that slid into the freed
  slot, the sibling following a reparented title node is never visited and
  stays in the source list (hence `rest.take 1 ++ ...` on the source side,
  and the recursive call on `rest.drop 1`);
* a node that is neither text nor element hits the bare
  `raise ValueError()` of line 103, and the inline-codeblock handler
  (lines 147-160) catches only `ValueError`, so the `AttributeError` from
  `child.firstChild.firstChild` on a missing or childless first child, or
  from `.tagName` on a non-element grandchild, escapes. -/
def cleanup_children (ctx : Ctx) : List NTree → FsState →
    Except PyErr (List NTree × List NTree × FsState)
  | [], st => .ok ([], [], st)
  | .text d :: rest, st =>
    exSeq (cleanup_children ctx rest st) (fun r =>
      .ok (.text d :: r.1, .text d :: r.2.1, r.2.2))
  | .other :: _, _ => .error .valueError
  | .elem tag attrs children :: rest, st =>
    if tag ∈ (["br", "hr"] : List String) then
      exSeq (cleanup_children ctx rest st) (fun r =>
        .ok (.elem tag attrs children :: r.1, .elem tag attrs [] :: r.2.1, r.2.2))
    else if tag ∈ passTags then
      exSeq (cleanup_children ctx children st) (fun rc =>
        exSeq (cleanup_children ctx rest rc.2.2) (fun r =>
          .ok (.elem tag attrs rc.1 :: r.1,
            .elem tag [] rc.2.1 :: r.2.1, r.2.2)))
    else if pyIn "question_text" (getAttr attrs "class") then
      exSeq (cleanup_children ctx (rest.drop 1) st) (fun r =>
        .ok (rest.take 1 ++ r.1,
          .elem "h1" [] [.elem tag attrs children] :: r.2.1, r.2.2))
    else if pyIn "board_item_title" (getAttr attrs "class") then
      exSeq (cleanup_children ctx (rest.drop 1) st) (fun r =>
        .ok (rest.take 1 ++ r.1,
          .elem "h1" [] [.elem tag attrs children] :: r.2.1, r.2.2))
    else if getAttr attrs "data-embed" ≠ "" then
      exSeq (cleanup_children ctx rest st) (fun r =>
        .ok (.elem tag attrs children :: r.1,
          embedBranch ctx (.elem tag attrs children) (getAttr attrs "data-embed")
            :: r.2.1, r.2.2))
    else if pyIn "inline_codeblock" (getAttr attrs "class") then
      exSeq (grandchildElem children) (fun g =>
        if g.1 = "span" then
          exSeq (cleanup_children ctx rest st) (fun r =>
            .ok (.elem tag attrs children :: r.1,
              .elem "code" []
                  [.text (get_text_content (.elem g.1 g.2.1 g.2.2))] :: r.2.1,
              r.2.2))
        else
          exSeq (cleanup_children ctx rest st) (fun r =>
            .ok (.elem tag attrs children :: r.1,
              .elem tag attrs children :: r.2.1, r.2.2)))
    else if pyIn "ContentFooter" (getAttr attrs "class") ||
        pyIn "hidden" (getAttr attrs "class") then
      exSeq (cleanup_children ctx rest st) (fun r =>
        .ok (.elem tag attrs children :: r.1, r.2.1, r.2.2))
    else if tag ∈ (["span", "div"] : List String) then
      exSeq (cleanup_children ctx children st) (fun rc =>
        exSeq (cleanup_children ctx rest rc.2.2) (fun r =>
          .ok (.elem tag attrs rc.1 :: r.1, rc.2.1 ++ r.2.1, r.2.2)))
    else if tag = "a" then
      exSeq (cleanup_children ctx children st) (fun rc =>
        exSeq (cleanup_children ctx rest rc.2.2) (fun r =>
          .ok (.elem tag attrs rc.1 :: r.1,
            .elem "a" [("href",
                if pyStartsWith (getAttr attrs "href") "/" then
                  "http://quora.com" ++ getAttr attrs "href"
                else getAttr attrs "href")] rc.2.1 :: r.2.1, r.2.2)))
    else if tag = "img" then
      if ctx.no_download then
        exSeq (cleanup_children ctx rest st) (fun r =>
          .ok (.elem tag attrs children :: r.1,
            .elem "img" [("src",
                if getAttr attrs "master_src" = "" then getAttr attrs "src"
                else getAttr attrs "master_src"),
              ("alt", getAttr attrs "alt")] [] :: r.2.1, r.2.2))
      else
        exSeq (cleanup_children ctx rest
            (localizeImage ctx.fetchOk
              (if getAttr attrs "master_src" = "" then getAttr attrs "src"
               else getAttr attrs "master_src") st).2) (fun r =>
          .ok (.elem tag attrs children :: r.1,
            .elem "img" [("src",
                (localizeImage ctx.fetchOk
                  (if getAttr attrs "master_src" = "" then getAttr attrs "src"
                   else getAttr attrs "master_src") st).1),
              ("alt", getAttr attrs "alt")] [] :: r.2.1, r.2.2))
    else if pyIn "codeblocktable" (getAttr attrs "class") then
      exSeq (cleanup_children ctx rest st) (fun r =>
        .ok (.elem tag attrs children :: r.1,
          codeblockBranch (.elem tag attrs children) :: r.2.1, r.2.2))
    else
      exSeq (cleanup_children ctx rest st) (fun r =>
        .ok (.elem tag attrs children :: r.1,
          .elem tag attrs children :: r.2.1, r.2.2))
termination_by l _ => sizeOf l
decreasing_by
  all_goals simp_wf
  all_goals try omega
  all_goals (have h := sizeOf_tail_le rest; omega)

/-- Function `cleanup_tree(doc, src, dest)` (lines 95-258): iterate over `src`'s
children, appending to `dest`; returns the possibly mutated `src`, the nodes
appended to `dest`, and the state. -/
def cleanup_tree (ctx : Ctx) (src : NTree) (st : FsState) :
    Except PyErr (NTree × List NTree × FsState) :=
  match src with
  | .elem t a ch =>
    exSeq (cleanup_children ctx ch st) (fun r => .ok (.elem t a r.1, r.2.1, r.2.2))
  | n => .ok (n, [], st)

theorem cleanup_children_nil (ctx : Ctx) (st : FsState) :
    cleanup_children ctx [] st = .ok ([], [], st) := by
  rw [cleanup_children]

/-! ## C4: what the rewrite mutates -/

/-- A concrete rewrite context: `--no_download`, failing network, vacuous
embed parser. -/
def ctxNoDownload : Ctx := ⟨true, fun _ => false, fun _ => NTree.other⟩

mutual
/-- No node in the subtree carries the `question_text` or `board_item_title`
class marker (as the substring tests of lines 112 and 118 read it). -/
def titleFree : NTree → Bool
  | .text _ => true
  | .other => true
  | .elem _ attrs ch =>
    !pyIn "question_text" (getAttr attrs "class") &&
    !pyIn "board_item_title" (getAttr attrs "class") && titleFreeList ch
def titleFreeList : List NTree → Bool
  | [] => true
  | c :: cs => titleFree c && titleFreeList cs
end

/-- Fuel-indexed form of source preservation: on a title-marker-free child
list, whenever `cleanup_children` succeeds, the source child list comes back
unchanged. -/
theorem cleanup_children_preserves_src (ctx : Ctx) :
    ∀ (fuel : Nat) (l : List NTree) (st : FsState), sizeOf l ≤ fuel →
      titleFreeList l = true →
      ∀ l' out st', cleanup_children ctx l st = .ok (l', out, st') → l' = l := by
  intro fuel
  induction fuel with
  | zero =>
    intro l st hsz
    cases l with
    | nil =>
      intro _ l' out st' heq
      simp only [cleanup_children] at heq
      simp at heq
      exact heq.1
    | cons c rest =>
      exfalso
      simp [List.cons.sizeOf_spec] at hsz
  | succ n ih =>
    intro l st hsz hfree l' out st' heq
    cases l with
    | nil =>
      simp only [cleanup_children] at heq
      simp at heq
      exact heq.1
    | cons c rest =>
      have hszrest : sizeOf rest ≤ n := by
        simp [List.cons.sizeOf_spec] at hsz
        have : 0 < sizeOf c := by cases c <;> simp
        omega
      cases c with
      | text d =>
        simp only [cleanup_children] at heq
        simp only [titleFreeList, titleFree, Bool.and_eq_true] at hfree
        rcases hrec : cleanup_children ctx rest st with e | ⟨r1, r2, r3⟩
        · rw [hrec] at heq
          simp at heq
        · rw [hrec] at heq
          simp only [exSeq_ok] at heq
          simp at heq
          obtain ⟨h1, h2, h3⟩ := heq
          rw [← h1, ih rest st hszrest hfree.2 r1 r2 r3 hrec]
      | other =>
        simp only [cleanup_children] at heq
        simp at heq
      | elem tag attrs children =>
        have hszch : sizeOf children ≤ n := by
          simp at hsz
          omega
        simp only [titleFreeList, titleFree, Bool.and_eq_true, Bool.not_eq_true'] at hfree
        obtain ⟨⟨⟨hqtf, hbitf⟩, hchil⟩, hrest⟩ := hfree
        simp only [cleanup_children] at heq
        by_cases hbr : tag ∈ (["br", "hr"] : List String)
        · rw [if_pos hbr] at heq
          rcases hrec : cleanup_children ctx rest st with e | ⟨r1, r2, r3⟩
          · rw [hrec] at heq
            simp at heq
          · rw [hrec] at heq
            simp only [exSeq_ok] at heq
            simp at heq
            obtain ⟨h1, h2, h3⟩ := heq
            rw [← h1, ih rest st hszrest hrest r1 r2 r3 hrec]
        · rw [if_neg hbr] at heq
          by_cases hpass : tag ∈ passTags
          · rw [if_pos hpass] at heq
            rcases hrec1 : cleanup_children ctx children st with e | ⟨c1, c2, c3⟩
            · rw [hrec1] at heq
              simp at heq
            · rw [hrec1] at heq
              simp only [exSeq_ok] at heq
              rcases hrec2 : cleanup_children ctx rest c3 with e | ⟨r1, r2, r3⟩
              · rw [hrec2] at heq
                simp at heq
              · rw [hrec2] at heq
                simp only [exSeq_ok] at heq
                simp at heq
                obtain ⟨h1, h2, h3⟩ := heq
                rw [← h1, ih children st hszch hchil c1 c2 c3 hrec1,
                  ih rest c3 hszrest hrest r1 r2 r3 hrec2]
          · rw [if_neg hpass] at heq
            rw [hqtf] at heq
            rw [hbitf] at heq
            simp only [Bool.false_eq_true, if_false] at heq
            by_cases hde : getAttr attrs "data-embed" ≠ ""
            · rw [if_pos hde] at heq
              rcases hrec : cleanup_children ctx rest st with e | ⟨r1, r2, r3⟩
              · rw [hrec] at heq
                simp at heq
              · rw [hrec] at heq
                simp only [exSeq_ok] at heq
                simp at heq
                obtain ⟨h1, h2, h3⟩ := heq
                rw [← h1, ih rest st hszrest hrest r1 r2 r3 hrec]
            · rw [if_neg hde] at heq
              by_cases hic : pyIn "inline_codeblock" (getAttr attrs "class") = true
              · rw [if_pos hic] at heq
                rcases hg : grandchildElem children with e | ⟨g1, g2, g3⟩
                · rw [hg] at heq
                  simp at heq
                · rw [hg] at heq
                  simp only [exSeq_ok] at heq
                  by_cases hspan : g1 = "span"
                  · rw [if_pos hspan] at heq
                    rcases hrec : cleanup_children ctx rest st with e | ⟨r1, r2, r3⟩
                    · rw [hrec] at heq
                      simp at heq
                    · rw [hrec] at heq
                      simp only [exSeq_ok] at heq
                      simp at heq
                      obtain ⟨h1, h2, h3⟩ := heq
                      rw [← h1, ih rest st hszrest hrest r1 r2 r3 hrec]
                  · rw [if_neg hspan] at heq
                    rcases hrec : cleanup_children ctx rest st with e | ⟨r1, r2, r3⟩
                    · rw [hrec] at heq
                      simp at heq
                    · rw [hrec] at heq
                      simp only [exSeq_ok] at heq
                      simp at heq
                      obtain ⟨h1, h2, h3⟩ := heq
                      rw [← h1, ih rest st hszrest hrest r1 r2 r3 hrec]
              · rw [if_neg hic] at heq
                by_cases hfoot : (pyIn "ContentFooter" (getAttr attrs "class") ||
                    pyIn "hidden" (getAttr attrs "class")) = true
                · rw [if_pos hfoot] at heq
                  rcases hrec : cleanup_children ctx rest st with e | ⟨r1, r2, r3⟩
                  · rw [hrec] at heq
                    simp at heq
                  · rw [hrec] at heq
                    simp only [exSeq_ok] at heq
                    simp at heq
                    obtain ⟨h1, h2, h3⟩ := heq
                    rw [← h1, ih rest st hszrest hrest r1 r2 r3 hrec]
                · rw [if_neg hfoot] at heq
                  by_cases hsd : tag ∈ (["span", "div"] : List String)
                  · rw [if_pos hsd] at heq
                    rcases hrec1 : cleanup_children ctx children st with e | ⟨c1, c2, c3⟩
                    · rw [hrec1] at heq
                      simp at heq
                    · rw [hrec1] at heq
                      simp only [exSeq_ok] at heq
                      rcases hrec2 : cleanup_children ctx rest c3 with e | ⟨r1, r2, r3⟩
                      · rw [hrec2] at heq
                        simp at heq
                      · rw [hrec2] at heq
                        simp only [exSeq_ok] at heq
                        simp at heq
                        obtain ⟨h1, h2, h3⟩ := heq
                        rw [← h1, ih children st hszch hchil c1 c2 c3 hrec1,
                          ih rest c3 hszrest hrest r1 r2 r3 hrec2]
                  · rw [if_neg hsd] at heq
                    by_cases ha : tag = "a"
                    · rw [if_pos ha] at heq
                      rcases hrec1 : cleanup_children ctx children st with e | ⟨c1, c2, c3⟩
                      · rw [hrec1] at heq
                        simp at heq
                      · rw [hrec1] at heq
                        simp only [exSeq_ok] at heq
                        rcases hrec2 : cleanup_children ctx rest c3 with e | ⟨r1, r2, r3⟩
                        · rw [hrec2] at heq
                          simp at heq
                        · rw [hrec2] at heq
                          simp only [exSeq_ok] at heq
                          simp at heq
                          obtain ⟨h1, h2, h3⟩ := heq
                          rw [← h1, ih children st hszch hchil c1 c2 c3 hrec1,
                            ih rest c3 hszrest hrest r1 r2 r3 hrec2]
                    · rw [if_neg ha] at heq
                      by_cases himg : tag = "img"
                      · rw [if_pos himg] at heq
                        by_cases hnd : ctx.no_download = true
                        · rw [if_pos hnd] at heq
                          rcases hrec : cleanup_children ctx rest st with e | ⟨r1, r2, r3⟩
                          · rw [hrec] at heq
                            simp at heq
                          · rw [hrec] at heq
                            simp only [exSeq_ok] at heq
                            simp at heq
                            obtain ⟨h1, h2, h3⟩ := heq
                            rw [← h1, ih rest st hszrest hrest r1 r2 r3 hrec]
                        · rw [if_neg hnd] at heq
                          rcases hrec : cleanup_children ctx rest
                              (localizeImage ctx.fetchOk
                                (if getAttr attrs "master_src" = "" then getAttr attrs "src"
                                 else getAttr attrs "master_src") st).2 with e | ⟨r1, r2, r3⟩
                          · rw [hrec] at heq
                            simp at heq
                          · rw [hrec] at heq
                            simp only [exSeq_ok] at heq
                            simp at heq
                            obtain ⟨h1, h2, h3⟩ := heq
                            rw [← h1, ih rest _ hszrest hrest r1 r2 r3 hrec]
                      · rw [if_neg himg] at heq
                        by_cases hcbt : pyIn "codeblocktable" (getAttr attrs "class") = true
                        · rw [if_pos hcbt] at heq
                          rcases hrec : cleanup_children ctx rest st with e | ⟨r1, r2, r3⟩
                          · rw [hrec] at heq
                            simp at heq
                          · rw [hrec] at heq
                            simp only [exSeq_ok] at heq
                            simp at heq
                            obtain ⟨h1, h2, h3⟩ := heq
                            rw [← h1, ih rest st hszrest hrest r1 r2 r3 hrec]
                        · rw [if_neg hcbt] at heq
                          rcases hrec : cleanup_children ctx rest st with e | ⟨r1, r2, r3⟩
                          · rw [hrec] at heq
                            simp at heq
                          · rw [hrec] at heq
                            simp only [exSeq_ok] at heq
                            simp at heq
                            obtain ⟨h1, h2, h3⟩ := heq
                            rw [← h1, ih rest st hszrest hrest r1 r2 r3 hrec]

/-- C4 fails as stated on the title branches, but holds elsewhere: for every
call on a subtree containing no node whose class attribute contains
`question_text` or `board_item_title`, a successful rewrite leaves the source
child list exactly as it was (all mutation is confined to the destination and
to freshly created nodes). -/
theorem C4_amended (ctx : Ctx) (l : List NTree) (st : FsState)
    (hfree : titleFreeList l = true) :
    ∀ l' out st', cleanup_children ctx l st = .ok (l', out, st') → l' = l :=
  cleanup_children_preserves_src ctx (sizeOf l) l st (Nat.le_refl _) hfree

/-- C4 fails on the code as claimed: rewriting a `question_text` child
reparents it out of the source child list (the synthesized `h1` steals the
node), and the live-list iteration then skips the following sibling, so the
source subtree is mutated (and the sibling is also never emitted). -/
theorem C4_counterexample :
    cleanup_children ctxNoDownload
        [NTree.elem "div" [("class", "question_text")] [], NTree.text "x"] ⟨[], 0⟩
      = .ok ([NTree.text "x"],
          [NTree.elem "h1" [] [NTree.elem "div" [("class", "question_text")] []]],
          ⟨[], 0⟩) ∧
    ([NTree.text "x"] : List NTree)
      ≠ [NTree.elem "div" [("class", "question_text")] [], NTree.text "x"] := by
  constructor
  · simp [cleanup_children, pyIn, isInfixChars, getAttr, passTags]
  · intro h
    simp at h

/-! ## C3: which per-node failures are caught -/

/-- C3 fails on the code: an `inline_codeblock` node with no children makes
`child.firstChild.firstChild` raise `AttributeError`, which the handler's
`except ValueError` does not catch, so the exception escapes the rewrite; and
a node that is neither text nor element (e.g. a comment) hits the bare
`raise ValueError()` of line 103, which no handler catches either.  In both
cases no verbatim clone is appended — the rewrite aborts. -/
theorem C3_counterexample :
    cleanup_children ctxNoDownload
        [NTree.elem "div" [("class", "inline_codeblock")] []] ⟨[], 0⟩
      = .error .attributeError ∧
    cleanup_children ctxNoDownload [NTree.other] ⟨[], 0⟩
      = .error .valueError := by
  constructor
  · simp [cleanup_children, pyIn, isInfixChars, getAttr, passTags, grandchildElem]
  · simp [cleanup_children]

/-- C3 amended: the embed and code-block handlers catch every failure inside
them and fall back to appending the result of their (total) handler — the
embed handler never propagates anything; in the inline-code handler the
explicit `ValueError` raised for a present non-`span` element grandchild is
caught and converted to a verbatim deep clone; but an `AttributeError` there
(missing or non-element child/grandchild) and the `ValueError` for
non-text/non-element nodes propagate out of the rewrite
(see the counterexample). -/
theorem C3_amended (ctx : Ctx) (st : FsState) (tag : String)
    (attrs : List (String × String)) (children : List NTree)
    (hbr : tag ∉ (["br", "hr"] : List String)) (hpass : tag ∉ passTags)
    (hqt : pyIn "question_text" (getAttr attrs "class") = false)
    (hbit : pyIn "board_item_title" (getAttr attrs "class") = false) :
    (getAttr attrs "data-embed" ≠ "" →
      cleanup_children ctx [NTree.elem tag attrs children] st
        = .ok ([NTree.elem tag attrs children],
            [embedBranch ctx (NTree.elem tag attrs children)
              (getAttr attrs "data-embed")], st)) ∧
    (∀ g1 g2 g3, getAttr attrs "data-embed" = "" →
      pyIn "inline_codeblock" (getAttr attrs "class") = true →
      grandchildElem children = .ok (g1, g2, g3) → g1 ≠ "span" →
      cleanup_children ctx [NTree.elem tag attrs children] st
        = .ok ([NTree.elem tag attrs children],
            [NTree.elem tag attrs children], st)) ∧
    (getAttr attrs "data-embed" = "" →
      pyIn "inline_codeblock" (getAttr attrs "class") = false →
      pyIn "ContentFooter" (getAttr attrs "class") = false →
      pyIn "hidden" (getAttr attrs "class") = false →
      tag ∉ (["span", "div"] : List String) → tag ≠ "a" → tag ≠ "img" →
      pyIn "codeblocktable" (getAttr attrs "class") = true →
      cleanup_children ctx [NTree.elem tag attrs children] st
        = .ok ([NTree.elem tag attrs children],
            [codeblockBranch (NTree.elem tag attrs children)], st)) := by
  refine ⟨?_, ?_, ?_⟩
  · intro hde
    simp only [cleanup_children]
    rw [if_neg hbr, if_neg hpass, hqt, hbit]
    simp only [Bool.false_eq_true, if_false, if_pos hde, exSeq_ok]
  · intro g1 g2 g3 hde hic hg hspan
    simp only [cleanup_children]
    rw [if_neg hbr, if_neg hpass, hqt, hbit]
    simp only [Bool.false_eq_true, if_false]
    rw [if_neg (by simp [hde] : ¬getAttr attrs "data-embed" ≠ ""), hic]
    simp only [if_true, hg, exSeq_ok]
    rw [if_neg (by simpa using hspan)]
  · intro hde hic hcf hhid hsd ha himg hcbt
    simp only [cleanup_children]
    rw [if_neg hbr, if_neg hpass, hqt, hbit]
    simp only [Bool.false_eq_true, if_false]
    rw [if_neg (by simp [hde] : ¬getAttr attrs "data-embed" ≠ ""), hic, hcf, hhid]
    simp only [Bool.false_eq_true, Bool.or_self, if_false]
    rw [if_neg hsd, if_neg ha, if_neg himg, hcbt]
    simp only [if_true, exSeq_ok]

/-- Witness for C3 amended: a concrete embed node, a concrete malformed
inline-code node (its grandchild is a `b`, not a `span`), and a concrete
code-block table, each handled without any propagated exception. -/
theorem C3_amended_witness :
    cleanup_children ctxNoDownload
        [NTree.elem "video" [("data-embed", "<x>")] []] ⟨[], 0⟩
      = .ok ([NTree.elem "video" [("data-embed", "<x>")] []],
          [embedBranch ctxNoDownload (NTree.elem "video" [("data-embed", "<x>")] [])
            (getAttr [("data-embed", "<x>")] "data-embed")], ⟨[], 0⟩) ∧
    cleanup_children ctxNoDownload
        [NTree.elem "q" [("class", "inline_codeblock")]
          [NTree.elem "pre" [] [NTree.elem "b" [] []]]] ⟨[], 0⟩
      = .ok ([NTree.elem "q" [("class", "inline_codeblock")]
            [NTree.elem "pre" [] [NTree.elem "b" [] []]]],
          [NTree.elem "q" [("class", "inline_codeblock")]
            [NTree.elem "pre" [] [NTree.elem "b" [] []]]], ⟨[], 0⟩) ∧
    cleanup_children ctxNoDownload
        [NTree.elem "table" [("class", "codeblocktable")] []] ⟨[], 0⟩
      = .ok ([NTree.elem "table" [("class", "codeblocktable")] []],
          [codeblockBranch (NTree.elem "table" [("class", "codeblocktable")] [])],
          ⟨[], 0⟩) :=
  ⟨(C3_amended ctxNoDownload ⟨[], 0⟩ "video" [("data-embed", "<x>")] []
      (by decide) (by decide) (by decide) (by decide)).1 (by decide),
   (C3_amended ctxNoDownload ⟨[], 0⟩ "q" [("class", "inline_codeblock")]
      [NTree.elem "pre" [] [NTree.elem "b" [] []]]
      (by decide) (by decide) (by decide) (by decide)).2.1 "b" [] []
      (by decide) (by decide) rfl (by decide),
   (C3_amended ctxNoDownload ⟨[], 0⟩ "table" [("class", "codeblocktable")] []
      (by decide) (by decide) (by decide) (by decide)).2.2
      (by decide) (by decide) (by decide) (by decide) (by decide)
      (by decide) (by decide) (by decide)⟩

/-! ## C5: class matching is by substring, not token -/

/-- C5 fails on the code: a node whose class attribute is the single token
`myContentFooterish` — which contains `ContentFooter` only as a proper
substring — is nevertheless skipped by the footer rule (nothing is emitted
for it), although exact token membership in the space-split class list does
not hold.  Under the claimed exact-token rule the node would have fallen to
the final verbatim-clone branch. -/
theorem C5_counterexample :
    cleanup_children ctxNoDownload
        [NTree.elem "section" [("class", "myContentFooterish")] []] ⟨[], 0⟩
      = .ok ([NTree.elem "section" [("class", "myContentFooterish")] []],
          [], ⟨[], 0⟩) ∧
    tokenIn "ContentFooter" "myContentFooterish" = false ∧
    pyIn "ContentFooter" "myContentFooterish" = true := by
  refine ⟨?_, by decide, by decide⟩
  simp [cleanup_children, pyIn, isInfixChars, getAttr, passTags]

/-- C5 amended: the per-node dispatch of `cleanup_tree` decides class
membership by Python substring containment on the raw class attribute value
(`marker in class_string`), not by token membership in the space-split list:
substring containment alone triggers the footer-skip rule and the
question-title rule.  (Only the per-file region classification of lines
327-358 uses exact token membership.) -/
theorem C5_amended (ctx : Ctx) (st : FsState) (tag : String)
    (attrs : List (String × String)) (children : List NTree)
    (hbr : tag ∉ (["br", "hr"] : List String)) (hpass : tag ∉ passTags) :
    (pyIn "question_text" (getAttr attrs "class") = true →
      cleanup_children ctx [NTree.elem tag attrs children] st
        = .ok ([], [NTree.elem "h1" [] [NTree.elem tag attrs children]], st)) ∧
    (pyIn "question_text" (getAttr attrs "class") = false →
      pyIn "board_item_title" (getAttr attrs "class") = false →
      getAttr attrs "data-embed" = "" →
      pyIn "inline_codeblock" (getAttr attrs "class") = false →
      pyIn "ContentFooter" (getAttr attrs "class") = true →
      cleanup_children ctx [NTree.elem tag attrs children] st
        = .ok ([NTree.elem tag attrs children], [], st)) := by
  constructor
  · intro hqt
    simp only [cleanup_children]
    rw [if_neg hbr, if_neg hpass, hqt]
    simp only [if_true, List.drop_nil, List.take_nil, cleanup_children_nil,
      exSeq_ok, List.nil_append]
  · intro hqt hbit hde hic hcf
    simp only [cleanup_children]
    rw [if_neg hbr, if_neg hpass, hqt, hbit]
    simp only [Bool.false_eq_true, if_false]
    rw [if_neg (by simp [hde] : ¬getAttr attrs "data-embed" ≠ ""), hic]
    simp only [Bool.false_eq_true, if_false, hcf]
    simp only [Bool.true_or, if_true, exSeq_ok]

/-- Witness for C5 amended: the class string `a question_textual` contains
`question_text` only inside a longer token yet triggers the title rule, and
`myContentFooterish` triggers the footer skip. -/
theorem C5_amended_witness :
    cleanup_children ctxNoDownload
        [NTree.elem "section" [("class", "a question_textual")] []] ⟨[], 0⟩
      = .ok ([], [NTree.elem "h1" []
          [NTree.elem "section" [("class", "a question_textual")] []]], ⟨[], 0⟩) ∧
    cleanup_children ctxNoDownload
        [NTree.elem "section" [("class", "myContentFooterish")] []] ⟨[], 0⟩
      = .ok ([NTree.elem "section" [("class", "myContentFooterish")] []],
          [], ⟨[], 0⟩) :=
  ⟨(C5_amended ctxNoDownload ⟨[], 0⟩ "section" [("class", "a question_textual")] []
      (by decide) (by decide)).1 (by decide),
   (C5_amended ctxNoDownload ⟨[], 0⟩ "section" [("class", "myContentFooterish")] []
      (by decide) (by decide)).2 (by decide) (by decide) (by decide) (by decide)
      (by decide)⟩

/-! ## C9: pass-through subtrees rewrite isomorphically -/

/-- None of the class markers of the per-node dispatch is present (substring
reading, as the code tests them) and there is no embed descriptor. -/
def markerFree (attrs : List (String × String)) : Bool :=
  getAttr attrs "data-embed" == "" &&
  !pyIn "question_text" (getAttr attrs "class") &&
  !pyIn "board_item_title" (getAttr attrs "class") &&
  !pyIn "inline_codeblock" (getAttr attrs "class") &&
  !pyIn "ContentFooter" (getAttr attrs "class") &&
  !pyIn "hidden" (getAttr attrs "class") &&
  !pyIn "codeblocktable" (getAttr attrs "class")

mutual
/-- The subtree consists only of text nodes and marker-free pass-through
elements: `br`/`hr` (childless, as void elements are in parsed HTML) and the
container tags of line 107. -/
def plainTree : NTree → Bool
  | .text _ => true
  | .other => false
  | .elem t attrs ch =>
    markerFree attrs &&
      ((decide (t ∈ (["br", "hr"] : List String)) && ch.isEmpty) ||
       (decide (t ∈ passTags) && plainTreeList ch))
def plainTreeList : List NTree → Bool
  | [] => true
  | c :: cs => plainTree c && plainTreeList cs
end

mutual
/-- What the pass-through branches of `cleanup_tree` construct: text nodes
are cloned, `br`/`hr` are shallow-cloned with their attributes, and
pass-through containers are recreated by `createElement` (same tag, no
attributes) around their rewritten children. -/
def passOutput : NTree → NTree
  | .text d => .text d
  | .other => .other
  | .elem t attrs ch =>
    if t ∈ (["br", "hr"] : List String) then .elem t attrs []
    else .elem t [] (passOutputList ch)
def passOutputList : List NTree → List NTree
  | [] => []
  | c :: cs => passOutput c :: passOutputList cs
end

mutual
/-- Structural isomorphism as the claim reads it: same node kinds, same tag
names, same text content, same child order — attributes not compared. -/
def shapeEq : NTree → NTree → Bool
  | .text d, .text e => d == e
  | .elem t _ ch, .elem t2 _ ch2 => t == t2 && shapeEqList ch ch2
  | .other, .other => true
  | _, _ => false
def shapeEqList : List NTree → List NTree → Bool
  | [], [] => true
  | c :: cs, d :: ds => shapeEq c d && shapeEqList cs ds
  | _, _ => false
end

/-- The pass-through container tags are disjoint from the self-closing
tags. -/
theorem pass_not_br (t : String) (h : t ∈ passTags) :
    t ∉ (["br", "hr"] : List String) := by
  fin_cases h <;> decide

/-- Fuel-indexed computation of the rewrite on plain subtrees: the source is
unchanged, the destination receives exactly the `passOutput` image, and no
file/network state is touched. -/
theorem cleanup_children_plain (ctx : Ctx) :
    ∀ (fuel : Nat) (l : List NTree) (st : FsState), sizeOf l ≤ fuel →
      plainTreeList l = true →
      cleanup_children ctx l st = .ok (l, passOutputList l, st) := by
  intro fuel
  induction fuel with
  | zero =>
    intro l st hsz hp
    cases l with
    | nil => simp [cleanup_children_nil, passOutputList]
    | cons c rest =>
      exfalso
      simp [List.cons.sizeOf_spec] at hsz
  | succ n ih =>
    intro l st hsz hp
    cases l with
    | nil => simp [cleanup_children_nil, passOutputList]
    | cons c rest =>
      have hszrest : sizeOf rest ≤ n := by
        simp [List.cons.sizeOf_spec] at hsz
        have : 0 < sizeOf c := by cases c <;> simp
        omega
      cases c with
      | text d =>
        simp only [plainTreeList, plainTree, Bool.and_eq_true, true_and] at hp
        simp only [cleanup_children, ih rest st hszrest hp, exSeq_ok]
        simp [passOutputList, passOutput]
      | other =>
        exfalso
        simp [plainTreeList, plainTree] at hp
      | elem tag attrs children =>
        have hszch : sizeOf children ≤ n := by
          simp at hsz
          omega
        simp only [plainTreeList, plainTree, Bool.and_eq_true, Bool.or_eq_true,
          decide_eq_true_eq] at hp
        obtain ⟨⟨hmf, hdisj⟩, hprest⟩ := hp
        rcases hdisj with ⟨hbr, hemp⟩ | ⟨hpass, hpch⟩
        · simp only [cleanup_children]
          rw [if_pos hbr, ih rest st hszrest hprest]
          simp only [exSeq_ok]
          simp only [passOutputList, passOutput]
          rw [if_pos hbr]
        · have hnbr := pass_not_br tag hpass
          simp only [cleanup_children]
          rw [if_neg hnbr, if_pos hpass, ih children st hszch hpch]
          simp only [exSeq_ok]
          rw [ih rest st hszrest hprest]
          simp only [exSeq_ok]
          simp only [passOutputList, passOutput]
          rw [if_neg hnbr]

/-- Fuel-indexed shape preservation: on plain subtrees the `passOutput`
image is structurally isomorphic to the source. -/
theorem passOutput_shape :
    ∀ (fuel : Nat) (l : List NTree), sizeOf l ≤ fuel →
      plainTreeList l = true → shapeEqList (passOutputList l) l = true := by
  intro fuel
  induction fuel with
  | zero =>
    intro l hsz hp
    cases l with
    | nil => simp [passOutputList, shapeEqList]
    | cons c rest =>
      exfalso
      simp [List.cons.sizeOf_spec] at hsz
  | succ n ih =>
    intro l hsz hp
    cases l with
    | nil => simp [passOutputList, shapeEqList]
    | cons c rest =>
      have hszrest : sizeOf rest ≤ n := by
        simp [List.cons.sizeOf_spec] at hsz
        have : 0 < sizeOf c := by cases c <;> simp
        omega
      cases c with
      | text d =>
        simp only [plainTreeList, plainTree, Bool.and_eq_true, true_and] at hp
        simp only [passOutputList, passOutput, shapeEqList, shapeEq,
          Bool.and_eq_true]
        exact ⟨by simp, ih rest hszrest hp⟩
      | other =>
        exfalso
        simp [plainTreeList, plainTree] at hp
      | elem tag attrs children =>
        have hszch : sizeOf children ≤ n := by
          simp at hsz
          omega
        simp only [plainTreeList, plainTree, Bool.and_eq_true, Bool.or_eq_true,
          decide_eq_true_eq] at hp
        obtain ⟨⟨hmf, hdisj⟩, hprest⟩ := hp
        rcases hdisj with ⟨hbr, hemp⟩ | ⟨hpass, hpch⟩
        · have hch : children = [] := by
            cases children with
            | nil => rfl
            | cons a b => simp [List.isEmpty] at hemp
          subst hch
          simp only [passOutputList, passOutput, shapeEqList]
          rw [if_pos hbr]
          simp only [shapeEq, Bool.and_eq_true]
          exact ⟨⟨by simp, by simp [shapeEqList]⟩, ih rest hszrest hprest⟩
        · have hnbr := pass_not_br tag hpass
          simp only [passOutputList, passOutput, shapeEqList]
          rw [if_neg hnbr]
          simp only [shapeEq, Bool.and_eq_true]
          exact ⟨⟨by simp, ih children hszch hpch⟩, ih rest hszrest hprest⟩

/-- C9: rewriting a subtree of only text nodes and marker-free pass-through
tags leaves the source untouched, emits exactly its `passOutput` image —
fresh elements with the same tags, text and order — and that image is
structurally isomorphic to the source. -/
theorem C9_pass_through_iso (ctx : Ctx) (l : List NTree) (st : FsState)
    (hplain : plainTreeList l = true) :
    cleanup_children ctx l st = .ok (l, passOutputList l, st) ∧
    shapeEqList (passOutputList l) l = true :=
  ⟨cleanup_children_plain ctx (sizeOf l) l st (Nat.le_refl _) hplain,
   passOutput_shape (sizeOf l) l (Nat.le_refl _) hplain⟩

/-- Witness for C9 on a concrete plain subtree. -/
theorem C9_pass_through_iso_witness :
    (cleanup_children ctxNoDownload
        [NTree.elem "b" [("class", "x")] [NTree.text "hi"], NTree.text "mid",
         NTree.elem "br" [("k", "v")] [],
         NTree.elem "p" [] [NTree.elem "i" [] [NTree.text "t"]]] ⟨[], 0⟩
      = .ok ([NTree.elem "b" [("class", "x")] [NTree.text "hi"], NTree.text "mid",
          NTree.elem "br" [("k", "v")] [],
          NTree.elem "p" [] [NTree.elem "i" [] [NTree.text "t"]]],
        passOutputList
          [NTree.elem "b" [("class", "x")] [NTree.text "hi"], NTree.text "mid",
           NTree.elem "br" [("k", "v")] [],
           NTree.elem "p" [] [NTree.elem "i" [] [NTree.text "t"]]], ⟨[], 0⟩)) ∧
    shapeEqList
      (passOutputList
        [NTree.elem "b" [("class", "x")] [NTree.text "hi"], NTree.text "mid",
         NTree.elem "br" [("k", "v")] [],
         NTree.elem "p" [] [NTree.elem "i" [] [NTree.text "t"]]])
      [NTree.elem "b" [("class", "x")] [NTree.text "hi"], NTree.text "mid",
       NTree.elem "br" [("k", "v")] [],
       NTree.elem "p" [] [NTree.elem "i" [] [NTree.text "t"]]] = true :=
  C9_pass_through_iso ctxNoDownload
    [NTree.elem "b" [("class", "x")] [NTree.text "hi"], NTree.text "mid",
     NTree.elem "br" [("k", "v")] [],
     NTree.elem "p" [] [NTree.elem "i" [] [NTree.text "t"]]] ⟨[], 0⟩
    (by simp only [plainTreeList, plainTree]
        decide)

/-- Witness for C4 on a concrete marker-free subtree, together with the
successful run that makes the implication non-vacuous. -/
theorem C4_amended_witness :
    cleanup_children ctxNoDownload
        [NTree.elem "b" [] [NTree.text "hi"], NTree.text "x"] ⟨[], 0⟩
      = .ok ([NTree.elem "b" [] [NTree.text "hi"], NTree.text "x"],
          passOutputList [NTree.elem "b" [] [NTree.text "hi"], NTree.text "x"],
          ⟨[], 0⟩) ∧
    (∀ l' out st', cleanup_children ctxNoDownload
        [NTree.elem "b" [] [NTree.text "hi"], NTree.text "x"] ⟨[], 0⟩
        = .ok (l', out, st')
      → l' = [NTree.elem "b" [] [NTree.text "hi"], NTree.text "x"]) :=
  ⟨cleanup_children_plain ctxNoDownload
      (sizeOf [NTree.elem "b" [] [NTree.text "hi"], NTree.text "x"])
      [NTree.elem "b" [] [NTree.text "hi"], NTree.text "x"] ⟨[], 0⟩
      (Nat.le_refl _)
      (by simp only [plainTreeList, plainTree]
          decide),
   C4_amended ctxNoDownload
      [NTree.elem "b" [] [NTree.text "hi"], NTree.text "x"] ⟨[], 0⟩
      (by simp only [titleFreeList, titleFree]
          decide)⟩
